import Mathlib

/-!
# Verification development for the Half-Wit cast receiver (`src/receiver.js`)

This file gives a shallow embedding of the message-driven screen state
machine of `receiver.js` and proves/refutes the specification claims about
it.  Pure computations (sorting, ranking, winner determination, badge
assignment, timer styling) are embedded as Lean functions; the stateful
parts (the dispatcher, the tutorial timeline scheduler, the round-results
reorder animator with its `setTimeout` timers) are embedded as explicit
state-passing functions over record states.

JavaScript `Array.prototype.sort` with a consistent comparator `cmp` is
required by ECMAScript (ES2019 and later) to be a stable sort; the unique
stable sort consistent with `cmp` is modelled by `List.insertionSort r`
with `r a b := cmp a b ≤ 0` (insertion sort processes elements in original
order and places an earlier element before a later one exactly when the
comparator does not order it strictly after, which is precisely stable
sorting).  Machine numbers in the payloads are modelled as `Int`
(scores, vote counts and ranks are small integers; no overflow is at
play).  `String.localeCompare` with the default locale is modelled as
lexical comparison on strings.
-/

namespace HalfwitReceiver

/-- A player record as it arrives in `round_results` / `game_results` /
`lobby` payloads: `{name, iconId, isHost, rank, roundScore, totalScore,
peerId?}` (receiver.js uses `player.name`, `player.iconId`,
`player.isHost`, `player.rank`, `player.roundScore`, `player.totalScore`,
`player.peerId`). -/
structure Player where
  name : String
  iconId : String
  isHost : Bool := false
  rank : Int := 0
  roundScore : Int := 0
  totalScore : Int := 0
  peerId : Option String := none
deriving DecidableEq, Repr, Inhabited

/-- Model of `a.localeCompare(b)` (default locale): negative when `a`
precedes `b` lexically, positive when it follows, zero when equal. -/
def localeCompare (a b : String) : Int :=
  if a < b then -1 else if b < a then 1 else 0

/-- The comparator of the initial round-results sort
(receiver.js:471-475):
`if (b.roundScore !== a.roundScore) return b.roundScore - a.roundScore;
 if (b.totalScore !== a.totalScore) return b.totalScore - a.totalScore;
 return a.name.localeCompare(b.name);` -/
def cmpRound (a b : Player) : Int :=
  if b.roundScore ≠ a.roundScore then b.roundScore - a.roundScore
  else if b.totalScore ≠ a.totalScore then b.totalScore - a.totalScore
  else localeCompare a.name b.name

/-- The comparator of the final round-results sort (receiver.js:487-491):
totalScore descending, then roundScore descending, then name ascending. -/
def cmpTotal (a b : Player) : Int :=
  if b.totalScore ≠ a.totalScore then b.totalScore - a.totalScore
  else if b.roundScore ≠ a.roundScore then b.roundScore - a.roundScore
  else localeCompare a.name b.name

/-- `a` is not ordered strictly after `b` by the round comparator. -/
def roundLe (a b : Player) : Prop := cmpRound a b ≤ 0

/-- `a` is not ordered strictly after `b` by the total comparator. -/
def totalLe (a b : Player) : Prop := cmpTotal a b ≤ 0

instance : DecidableRel roundLe := fun a b => inferInstanceAs (Decidable (cmpRound a b ≤ 0))

instance : DecidableRel totalLe := fun a b => inferInstanceAs (Decidable (cmpTotal a b ≤ 0))

/-- Generic shape of both comparators' non-strict order: lexicographic on
(primary score descending, secondary score descending, name ascending). -/
def lexLe (f g : Player → Int) (a b : Player) : Prop :=
  f b < f a ∨ (f b = f a ∧ (g b < g a ∨ (g b = g a ∧ a.name ≤ b.name)))

theorem localeCompare_nonpos_iff {a b : String} : localeCompare a b ≤ 0 ↔ a ≤ b := by
  unfold localeCompare
  rcases lt_trichotomy a b with h | h | h
  · simp [h, le_of_lt h, not_lt_of_lt h]
  · simp [h]
  · simp [not_lt_of_lt h, h, not_le_of_lt h, ne_of_gt h]

theorem cmpRound_le_iff {a b : Player} :
    roundLe a b ↔ lexLe (fun p => p.roundScore) (fun p => p.totalScore) a b := by
  simp only [roundLe, cmpRound, lexLe]
  by_cases h1 : b.roundScore = a.roundScore
  · rw [if_neg (not_not_intro h1)]
    by_cases h2 : b.totalScore = a.totalScore
    · rw [if_neg (not_not_intro h2), localeCompare_nonpos_iff]
      constructor
      · intro h
        exact Or.inr ⟨h1, Or.inr ⟨h2, h⟩⟩
      · rintro (h | ⟨-, h | ⟨-, h⟩⟩)
        · omega
        · omega
        · exact h
    · rw [if_pos h2]
      constructor
      · intro h
        exact Or.inr ⟨h1, Or.inl (by omega)⟩
      · rintro (h | ⟨-, h | ⟨h, -⟩⟩) <;> omega
  · rw [if_pos h1]
    constructor
    · intro h
      exact Or.inl (by omega)
    · rintro (h | ⟨h, -⟩) <;> omega

theorem cmpTotal_le_iff {a b : Player} :
    totalLe a b ↔ lexLe (fun p => p.totalScore) (fun p => p.roundScore) a b := by
  simp only [totalLe, cmpTotal, lexLe]
  by_cases h1 : b.totalScore = a.totalScore
  · rw [if_neg (not_not_intro h1)]
    by_cases h2 : b.roundScore = a.roundScore
    · rw [if_neg (not_not_intro h2), localeCompare_nonpos_iff]
      constructor
      · intro h
        exact Or.inr ⟨h1, Or.inr ⟨h2, h⟩⟩
      · rintro (h | ⟨-, h | ⟨-, h⟩⟩)
        · omega
        · omega
        · exact h
    · rw [if_pos h2]
      constructor
      · intro h
        exact Or.inr ⟨h1, Or.inl (by omega)⟩
      · rintro (h | ⟨-, h | ⟨h, -⟩⟩) <;> omega
  · rw [if_pos h1]
    constructor
    · intro h
      exact Or.inl (by omega)
    · rintro (h | ⟨h, -⟩) <;> omega

theorem lexLe_total (f g : Player → Int) (a b : Player) : lexLe f g a b ∨ lexLe f g b a := by
  simp only [lexLe]
  rcases lt_trichotomy (f a) (f b) with h | h | h
  · exact Or.inr (Or.inl h)
  · rcases lt_trichotomy (g a) (g b) with h2 | h2 | h2
    · exact Or.inr (Or.inr ⟨h, Or.inl h2⟩)
    · rcases le_total a.name b.name with h3 | h3
      · exact Or.inl (Or.inr ⟨h.symm, Or.inr ⟨h2.symm, h3⟩⟩)
      · exact Or.inr (Or.inr ⟨h, Or.inr ⟨h2, h3⟩⟩)
    · exact Or.inl (Or.inr ⟨h.symm, Or.inl h2⟩)
  · exact Or.inl (Or.inl h)

theorem lexLe_trans (f g : Player → Int) (a b c : Player)
    (hab : lexLe f g a b) (hbc : lexLe f g b c) : lexLe f g a c := by
  simp only [lexLe] at *
  rcases hab with h1 | ⟨h1, h1'⟩
  · rcases hbc with h2 | ⟨h2, -⟩
    · exact Or.inl (h2.trans h1)
    · exact Or.inl (lt_of_le_of_lt (le_of_eq h2) h1)
  · rcases hbc with h2 | ⟨h2, h2'⟩
    · exact Or.inl (lt_of_lt_of_le h2 (le_of_eq h1))
    · refine Or.inr ⟨h2.trans h1, ?_⟩
      rcases h1' with h3 | ⟨h3, h3'⟩
      · rcases h2' with h4 | ⟨h4, -⟩
        · exact Or.inl (h4.trans h3)
        · exact Or.inl (lt_of_le_of_lt (le_of_eq h4) h3)
      · rcases h2' with h4 | ⟨h4, h4'⟩
        · exact Or.inl (lt_of_lt_of_le h4 (le_of_eq h3))
        · exact Or.inr ⟨h4.trans h3, h3'.trans h4'⟩

instance : IsTotal Player roundLe :=
  ⟨fun a b => by rw [cmpRound_le_iff, cmpRound_le_iff]; exact lexLe_total _ _ a b⟩

instance : IsTrans Player roundLe :=
  ⟨fun a b c hab hbc => by
    rw [cmpRound_le_iff] at *
    exact lexLe_trans _ _ a b c hab hbc⟩

instance : IsTotal Player totalLe :=
  ⟨fun a b => by rw [cmpTotal_le_iff, cmpTotal_le_iff]; exact lexLe_total _ _ a b⟩

instance : IsTrans Player totalLe :=
  ⟨fun a b c hab hbc => by
    rw [cmpTotal_le_iff] at *
    exact lexLe_trans _ _ a b c hab hbc⟩

/-- `[...data.players].sort((a, b) => ...)` for the initial display order
(receiver.js:471-475): stable sort by the round comparator. -/
def sortedByRound (players : List Player) : List Player :=
  List.insertionSort roundLe players

/-- `[...data.players].sort((a, b) => ...)` for the final order
(receiver.js:487-491): stable sort by the total comparator. -/
def sortedByTotal (players : List Player) : List Player :=
  List.insertionSort totalLe players

theorem sortedByRound_sorted (players : List Player) :
    (sortedByRound players).Sorted roundLe :=
  List.sorted_insertionSort roundLe players

theorem sortedByTotal_sorted (players : List Player) :
    (sortedByTotal players).Sorted totalLe :=
  List.sorted_insertionSort totalLe players

theorem sortedByRound_perm (players : List Player) :
    (sortedByRound players).Perm players :=
  List.perm_insertionSort roundLe players

theorem sortedByTotal_perm (players : List Player) :
    (sortedByTotal players).Perm players :=
  List.perm_insertionSort totalLe players

/-- The competition-rank assignment loop of receiver.js:477-484 and
receiver.js:493-500: walk the sorted list with a running rank, resetting
it to `index + 1` whenever the previous element's score is strictly
greater (`if (sorted[index - 1].score > player.score) rank = index + 1`).
`prev` is the previous element, `prevRank` the rank assigned to it and
`idx` the 0-based index of the head of the remaining list. -/
def ranksFrom (sc : Player → Int) : Player → Nat → Nat → List Player → List Nat
  | _, _, _, [] => []
  | prev, prevRank, idx, x :: xs =>
    let r := if sc x < sc prev then idx + 1 else prevRank
    r :: ranksFrom sc x r (idx + 1) xs

/-- Ranks for a whole sorted list: the rank counter starts at 1 and the
element at index 0 never triggers the reset (`index > 0` guard). -/
def assignRanks (sc : Player → Int) : List Player → List Nat
  | [] => []
  | x :: xs => 1 :: ranksFrom sc x 1 1 xs

/-- `player.displayRank` values, in the order of the initial display
(receiver.js:477-484). -/
def displayRanks (players : List Player) : List Nat :=
  assignRanks (fun p => p.roundScore) (sortedByRound players)

/-- `player.finalRank` values, in total order (receiver.js:493-500). -/
def finalRanks (players : List Player) : List Nat :=
  assignRanks (fun p => p.totalScore) (sortedByTotal players)

theorem ranksFrom_length (sc : Player → Int) (xs : List Player) :
    ∀ (prev : Player) (r0 idx : Nat), (ranksFrom sc prev r0 idx xs).length = xs.length := by
  induction xs with
  | nil => intro prev r0 idx; rfl
  | cons x xs ih =>
    intro prev r0 idx
    simp only [ranksFrom, List.length_cons, ih]

theorem assignRanks_length (sc : Player → Int) (l : List Player) :
    (assignRanks sc l).length = l.length := by
  cases l with
  | nil => rfl
  | cons x xs => simp only [assignRanks, List.length_cons, ranksFrom_length]

theorem ranksFrom_getD_succ (sc : Player → Int) (xs : List Player) :
    ∀ (prev : Player) (r0 idx i : Nat), i + 1 < xs.length →
      (ranksFrom sc prev r0 idx xs).getD (i + 1) 0 =
        if sc (xs.getD (i + 1) default) < sc (xs.getD i default) then idx + i + 2
        else (ranksFrom sc prev r0 idx xs).getD i 0 := by
  induction xs with
  | nil =>
    intro prev r0 idx i h
    exact absurd h (by simp)
  | cons x xs ih =>
    intro prev r0 idx i h
    cases i with
    | zero =>
      cases xs with
      | nil => exact absurd h (by simp)
      | cons y ys =>
        simp only [ranksFrom, List.getD_cons_succ, List.getD_cons_zero]
    | succ k =>
      have hk : k + 1 < xs.length := by
        simpa using Nat.lt_of_succ_lt_succ h
      simp only [ranksFrom, List.getD_cons_succ]
      rw [ih x _ (idx + 1) k hk]
      have harith : idx + 1 + k + 2 = idx + (k + 1) + 2 := by omega
      rw [harith]

theorem assignRanks_getD_zero (sc : Player → Int) (l : List Player) (h : 0 < l.length) :
    (assignRanks sc l).getD 0 0 = 1 := by
  cases l with
  | nil => exact absurd h (by simp)
  | cons x xs => rfl

theorem assignRanks_getD_succ (sc : Player → Int) (l : List Player) (i : Nat)
    (h : i + 1 < l.length) :
    (assignRanks sc l).getD (i + 1) 0 =
      if sc (l.getD (i + 1) default) < sc (l.getD i default) then i + 2
      else (assignRanks sc l).getD i 0 := by
  cases l with
  | nil => exact absurd h (by simp)
  | cons x xs =>
    cases i with
    | zero =>
      cases xs with
      | nil => exact absurd h (by simp)
      | cons y ys =>
        simp only [assignRanks, ranksFrom, List.getD_cons_succ, List.getD_cons_zero]
    | succ k =>
      have hk : k + 1 < xs.length := by
        simpa using Nat.lt_of_succ_lt_succ h
      simp only [assignRanks, List.getD_cons_succ]
      rw [ranksFrom_getD_succ sc xs x 1 1 k hk]
      have harith : 1 + k + 2 = k + 1 + 2 := by omega
      rw [harith]

/-- On a list whose scores are non-increasing, the rank loop assigns to
index `i` exactly `1 +` the index of the first occurrence of the score of
element `i`: competition ranking. -/
theorem assignRanks_getD_eq_findIdx (sc : Player → Int) (l : List Player)
    (hs : ∀ i j, i ≤ j → j < l.length →
      sc (l.getD j default) ≤ sc (l.getD i default)) :
    ∀ i, i < l.length →
      (assignRanks sc l).getD i 0 =
        l.findIdx (fun p => sc p == sc (l.getD i default)) + 1 := by
  intro i
  induction i with
  | zero =>
    intro h
    rw [assignRanks_getD_zero sc l h]
    have hfind : l.findIdx (fun p => sc p == sc (l.getD 0 default)) = 0 := by
      rw [List.findIdx_eq h]
      refine ⟨?_, fun j hj => absurd hj (Nat.not_lt_zero j)⟩
      rw [← List.getD_eq_getElem l default h]
      exact beq_self_eq_true _
    rw [hfind]
  | succ k ih =>
    intro h
    have hk : k < l.length := Nat.lt_of_succ_lt h
    by_cases hlt : sc (l.getD (k + 1) default) < sc (l.getD k default)
    · rw [assignRanks_getD_succ sc l k h, if_pos hlt]
      have hfind : l.findIdx (fun p => sc p == sc (l.getD (k + 1) default)) = k + 1 := by
        rw [List.findIdx_eq h]
        constructor
        · rw [← List.getD_eq_getElem l default h]
          exact beq_self_eq_true _
        · intro j hj
          have hji : j ≤ k := Nat.lt_succ_iff.mp hj
          have hge := hs j k hji hk
          have hjlen : j < l.length := lt_of_le_of_lt hji hk
          rw [← List.getD_eq_getElem l default hjlen]
          refine beq_eq_false_iff_ne.mpr ?_
          intro heq
          rw [heq] at hge
          omega
      rw [hfind]
    · have hle := hs k (k + 1) (Nat.le_succ k) h
      have heq : sc (l.getD (k + 1) default) = sc (l.getD k default) := by omega
      rw [assignRanks_getD_succ sc l k h, if_neg hlt, ih hk, heq]

theorem sortedByRound_roundScore_anti (players : List Player) :
    ∀ i j, i ≤ j → j < (sortedByRound players).length →
      ((sortedByRound players).getD j default).roundScore ≤
        ((sortedByRound players).getD i default).roundScore := by
  intro i j hij hj
  rcases Nat.eq_or_lt_of_le hij with rfl | hlt
  · exact le_refl _
  · have hi : i < (sortedByRound players).length := lt_trans hlt hj
    have hrel := @List.Sorted.rel_get_of_lt _ _ _ (sortedByRound_sorted players)
      ⟨i, hi⟩ ⟨j, hj⟩ (Fin.mk_lt_mk.mpr hlt)
    rw [cmpRound_le_iff] at hrel
    simp only [List.get_eq_getElem] at hrel
    rw [← List.getD_eq_getElem _ default hi, ← List.getD_eq_getElem _ default hj] at hrel
    rcases hrel with hlt2 | ⟨heq, -⟩
    · exact le_of_lt hlt2
    · exact le_of_eq heq

theorem sortedByTotal_totalScore_anti (players : List Player) :
    ∀ i j, i ≤ j → j < (sortedByTotal players).length →
      ((sortedByTotal players).getD j default).totalScore ≤
        ((sortedByTotal players).getD i default).totalScore := by
  intro i j hij hj
  rcases Nat.eq_or_lt_of_le hij with rfl | hlt
  · exact le_refl _
  · have hi : i < (sortedByTotal players).length := lt_trans hlt hj
    have hrel := @List.Sorted.rel_get_of_lt _ _ _ (sortedByTotal_sorted players)
      ⟨i, hi⟩ ⟨j, hj⟩ (Fin.mk_lt_mk.mpr hlt)
    rw [cmpTotal_le_iff] at hrel
    simp only [List.get_eq_getElem] at hrel
    rw [← List.getD_eq_getElem _ default hi, ← List.getD_eq_getElem _ default hj] at hrel
    rcases hrel with hlt2 | ⟨heq, -⟩
    · exact le_of_lt hlt2
    · exact le_of_eq heq

/-- The three competition-ranking properties, derived once for any list
whose scores are non-increasing: equal scores share a rank, a strictly
greater score has a strictly smaller rank, and each rank is 1 plus the
index of the first occurrence of its score. -/
theorem competition_rank_properties (sc : Player → Int) (l : List Player)
    (hs : ∀ i j, i ≤ j → j < l.length →
      sc (l.getD j default) ≤ sc (l.getD i default))
    (i j : Nat) (hi : i < l.length) (hj : j < l.length) :
    (sc (l.getD i default) = sc (l.getD j default) →
      (assignRanks sc l).getD i 0 = (assignRanks sc l).getD j 0) ∧
    (sc (l.getD j default) < sc (l.getD i default) →
      (assignRanks sc l).getD i 0 < (assignRanks sc l).getD j 0) ∧
    (assignRanks sc l).getD i 0 =
      l.findIdx (fun p => sc p == sc (l.getD i default)) + 1 := by
  have hchar := assignRanks_getD_eq_findIdx sc l hs
  refine ⟨?_, ?_, hchar i hi⟩
  · intro heq
    rw [hchar i hi, hchar j hj, heq]
  · intro hgt
    rw [hchar i hi, hchar j hj]
    have hp_i : (fun p => sc p == sc (l.getD i default)) (l.getD i default) = true :=
      beq_self_eq_true _
    have hfi_le : l.findIdx (fun p => sc p == sc (l.getD i default)) ≤ i := by
      by_contra hcon
      push_neg at hcon
      have := List.not_of_lt_findIdx hcon
      rw [← List.getD_eq_getElem l default hi] at this
      simp at this
    have hfj_lt : l.findIdx (fun p => sc p == sc (l.getD j default)) < l.length := by
      refine List.findIdx_lt_length_of_exists ⟨l.getD j default, ?_, beq_self_eq_true _⟩
      rw [List.getD_eq_getElem l default hj]
      exact List.getElem_mem hj
    refine Nat.succ_lt_succ ?_
    by_contra hcon
    push_neg at hcon
    -- hcon : findIdx for j's score ≤ findIdx for i's score
    have hfj_le_i : l.findIdx (fun p => sc p == sc (l.getD j default)) ≤ i :=
      le_trans hcon hfi_le
    have hatj := @List.findIdx_getElem _ (fun p => sc p == sc (l.getD j default)) l hfj_lt
    rw [beq_iff_eq] at hatj
    have hanti := hs (l.findIdx (fun p => sc p == sc (l.getD j default))) i hfj_le_i hi
    rw [List.getD_eq_getElem l default hfj_lt] at hanti
    rw [hatj] at hanti
    omega

/-- C1: for every round_results player list, both the round-order display
ranks (computed from `roundScore` at receiver.js:477-484) and the
total-order final ranks (computed from `totalScore` at
receiver.js:493-500) follow competition ranking: players with equal
scores share a rank, a strictly greater score yields a strictly smaller
rank, and each rank equals the 1-based position of the first occurrence
of its distinct score in the sorted sequence. -/
theorem C1_competition_ranking (players : List Player) (i j : Nat)
    (hi : i < players.length) (hj : j < players.length) :
    ((((sortedByRound players).getD i default).roundScore =
        ((sortedByRound players).getD j default).roundScore →
      (displayRanks players).getD i 0 = (displayRanks players).getD j 0) ∧
     (((sortedByRound players).getD j default).roundScore <
        ((sortedByRound players).getD i default).roundScore →
      (displayRanks players).getD i 0 < (displayRanks players).getD j 0) ∧
     (displayRanks players).getD i 0 =
       (sortedByRound players).findIdx
         (fun p => p.roundScore == ((sortedByRound players).getD i default).roundScore) + 1) ∧
    ((((sortedByTotal players).getD i default).totalScore =
        ((sortedByTotal players).getD j default).totalScore →
      (finalRanks players).getD i 0 = (finalRanks players).getD j 0) ∧
     (((sortedByTotal players).getD j default).totalScore <
        ((sortedByTotal players).getD i default).totalScore →
      (finalRanks players).getD i 0 < (finalRanks players).getD j 0) ∧
     (finalRanks players).getD i 0 =
       (sortedByTotal players).findIdx
         (fun p => p.totalScore == ((sortedByTotal players).getD i default).totalScore) + 1) := by
  have hlenR : (sortedByRound players).length = players.length :=
    (sortedByRound_perm players).length_eq
  have hlenT : (sortedByTotal players).length = players.length :=
    (sortedByTotal_perm players).length_eq
  have hR := competition_rank_properties (fun p => p.roundScore) (sortedByRound players)
    (sortedByRound_roundScore_anti players) i j (by omega) (by omega)
  have hT := competition_rank_properties (fun p => p.totalScore) (sortedByTotal players)
    (sortedByTotal_totalScore_anti players) i j (by omega) (by omega)
  exact ⟨⟨hR.1, hR.2.1, hR.2.2⟩, ⟨hT.1, hT.2.1, hT.2.2⟩⟩

/-- Stability of the modelled sort: a filter that selects a class of
mutually comparable-in-both-directions elements is preserved by the sort,
i.e. those elements keep their original relative order. -/
theorem insertionSort_filter_eq (r : Player → Player → Prop) [DecidableRel r]
    [IsTotal Player r] [IsTrans Player r] (l : List Player) (p : Player → Bool)
    (hp : ∀ a b, p a = true → p b = true → r a b) :
    (List.insertionSort r l).filter p = l.filter p := by
  have hpair : (l.filter p).Pairwise r := by
    refine List.pairwise_of_forall_mem_list ?_
    intro a ha b hb
    exact hp a b (List.of_mem_filter ha) (List.of_mem_filter hb)
  have hsub : List.Sublist (l.filter p) (List.insertionSort r l) :=
    List.sublist_insertionSort hpair (List.filter_sublist l)
  have hself : (l.filter p).filter p = l.filter p :=
    List.filter_eq_self.mpr (fun a ha => List.of_mem_filter ha)
  have hsub2 : List.Sublist (l.filter p) ((List.insertionSort r l).filter p) := by
    have h := List.Sublist.filter p hsub
    rwa [hself] at h
  have hlen : (l.filter p).length = ((List.insertionSort r l).filter p).length := by
    rw [← List.countP_eq_length_filter p l, ← List.countP_eq_length_filter p _]
    exact ((List.perm_insertionSort r l).countP_eq p).symm
  exact (hsub2.eq_of_length hlen).symm

/-- Modelled from the spec: the total-order comparison in the spec's own
words (§4.4 step 2) — `totalScore` descending, ties broken by
`roundScore` descending, further ties by name in ascending lexical
order. -/
def specTotalOrderLe (a b : Player) : Prop :=
  b.totalScore < a.totalScore ∨ (b.totalScore = a.totalScore ∧
    (b.roundScore < a.roundScore ∨ (b.roundScore = a.roundScore ∧ a.name ≤ b.name)))

/-- Modelled from the spec claim C3: the claimed initial order — a stable
sort by `roundScore` descending ONLY, with no further tie-break. -/
def specRoundOnlySort (players : List Player) : List Player :=
  List.insertionSort (fun a b => b.roundScore ≤ a.roundScore) players

/-- The initial-sort comparison the code actually implements
(receiver.js:471-475): `roundScore` descending, ties broken by
`totalScore` descending, further ties by name ascending. -/
def specRoundOrderLe (a b : Player) : Prop :=
  b.roundScore < a.roundScore ∨ (b.roundScore = a.roundScore ∧
    (b.totalScore < a.totalScore ∨ (b.totalScore = a.totalScore ∧ a.name ≤ b.name)))

/-- C2: the total-order sequence is the stable sort of the players by
totalScore descending, ties by roundScore descending, remaining ties by
name ascending: it is a permutation of the payload list, it is sorted by
that lexicographic comparison, and any class of players agreeing on the
full (totalScore, roundScore, name) key keeps its original relative
order. -/
theorem C2_total_order_stable_sort (players : List Player) :
    (sortedByTotal players).Perm players ∧
    (sortedByTotal players).Pairwise specTotalOrderLe ∧
    (∀ t rs n,
      (sortedByTotal players).filter
          (fun x => x.totalScore == t && (x.roundScore == rs && x.name == n)) =
        players.filter
          (fun x => x.totalScore == t && (x.roundScore == rs && x.name == n))) := by
  refine ⟨sortedByTotal_perm players, ?_, ?_⟩
  · refine (sortedByTotal_sorted players).imp ?_
    intro a b hab
    rw [cmpTotal_le_iff] at hab
    exact hab
  · intro t rs n
    refine insertionSort_filter_eq totalLe players _ ?_
    intro a b ha hb
    simp only [Bool.and_eq_true, beq_iff_eq] at ha hb
    rw [cmpTotal_le_iff]
    refine Or.inr ⟨hb.1.trans ha.1.symm, Or.inr ⟨hb.2.1.trans ha.2.1.symm, ?_⟩⟩
    rw [ha.2.2, hb.2.2]

/-- Two players tied on roundScore (1) but with different totalScores;
the payload order puts the lower totalScore first. -/
def c3PlayerB : Player := { name := "B", iconId := "snail", roundScore := 1, totalScore := 0 }

/-- Second player of the C3/C10 counterexamples. -/
def c3PlayerA : Player := { name := "A", iconId := "cactus", roundScore := 1, totalScore := 5 }

/-- C3 counterexample: the claim says the initial display sequence is the
stable sort by roundScore descending with NO further tie-break, so the
payload order [B, A] (equal roundScore) would be preserved; the code's
initial sort (receiver.js:471-475) also breaks ties by totalScore and
name and produces [A, B]. -/
theorem C3_counterexample :
    specRoundOnlySort [c3PlayerB, c3PlayerA] = [c3PlayerB, c3PlayerA] ∧
    sortedByRound [c3PlayerB, c3PlayerA] ≠ [c3PlayerB, c3PlayerA] := by
  decide

/-- C3 amended: the initial display sequence (round order) is the stable
sort of the players by roundScore descending with ties broken by
totalScore descending and remaining ties by name ascending; players
agreeing on the full (roundScore, totalScore, name) key keep their
original relative order from the incoming payload. -/
theorem C3_round_order_stable_sort (players : List Player) :
    (sortedByRound players).Perm players ∧
    (sortedByRound players).Pairwise specRoundOrderLe ∧
    (∀ rs t n,
      (sortedByRound players).filter
          (fun x => x.roundScore == rs && (x.totalScore == t && x.name == n)) =
        players.filter
          (fun x => x.roundScore == rs && (x.totalScore == t && x.name == n))) := by
  refine ⟨sortedByRound_perm players, ?_, ?_⟩
  · refine (sortedByRound_sorted players).imp ?_
    intro a b hab
    rw [cmpRound_le_iff] at hab
    exact hab
  · intro rs t n
    refine insertionSort_filter_eq roundLe players _ ?_
    intro a b ha hb
    simp only [Bool.and_eq_true, beq_iff_eq] at ha hb
    rw [cmpRound_le_iff]
    refine Or.inr ⟨hb.1.trans ha.1.symm, Or.inr ⟨hb.2.1.trans ha.2.1.symm, ?_⟩⟩
    rw [ha.2.2, hb.2.2]

/-- JS `Map` over string keys as an association list in insertion order;
`Map.set` overwrites the value of an existing key in place and otherwise
appends. -/
def mapSet : List (String × Nat) → String → Nat → List (String × Nat)
  | [], k, v => [(k, v)]
  | (k0, v0) :: m, k, v => if k0 = k then (k, v) :: m else (k0, v0) :: mapSet m k v

/-- JS `Map.get` (`undefined` modelled as `none`). -/
def mapGet : List (String × Nat) → String → Option Nat
  | [], _ => none
  | (k0, v0) :: m, k => if k0 = k then some v0 else mapGet m k

/-- receiver.js:502-506: `finalPositions` maps each player's NAME to its
index in the sorted-by-total array (`sortedByTotal.forEach((player,
index) => finalPositions.set(player.name, index))`). `idx` is the index
of the head of the remaining list. -/
def finalPositionsAux (m : List (String × Nat)) (idx : Nat) : List Player → List (String × Nat)
  | [] => m
  | p :: ps => finalPositionsAux (mapSet m p.name idx) (idx + 1) ps

/-- The name-to-final-index map of a round-results render. -/
def finalPositions (players : List Player) : List (String × Nat) :=
  finalPositionsAux [] 0 (sortedByTotal players)

/-- The data stamped on a rendered round-results leaderboard entry:
`data-player-id` (`player.peerId || player.name`, receiver.js:141), the
rank badge rendered at creation (`'#' + player.rank`, receiver.js:140 and
145, i.e. the payload `rank` field), and the animation attributes of
receiver.js:509-523 (`data-initial-index`, `data-final-index`,
`data-final-rank`, `data-total-score`). -/
structure LBEntry where
  playerId : String
  rankLabel : Int
  name : String
  initialIndex : Nat
  finalIndex : Nat
  finalRank : Nat
  totalScore : Int
deriving DecidableEq, Repr, Inhabited

/-- receiver.js:509-523: build the displayed entries from the round-order
list; `finalIndex` comes from the name-keyed map (`finalPositions.get(
player.name)`; the lookup always succeeds for a rendered player, `getD 0`
resolves the impossible miss) and `finalRank` reads the `finalRank`
assigned to the player sitting at `finalIndex` of the total order
(`sortedByTotal[finalIndex].finalRank`, which is position `finalIndex` of
`finalRanks`). -/
def roundResultsEntriesAux (players : List Player) : Nat → List Player → List LBEntry
  | _, [] => []
  | idx, p :: ps =>
    let fi := (mapGet (finalPositions players) p.name).getD 0
    { playerId := p.peerId.getD p.name
      rankLabel := p.rank
      name := p.name
      initialIndex := idx
      finalIndex := fi
      finalRank := (finalRanks players).getD fi 0
      totalScore := p.totalScore } :: roundResultsEntriesAux players (idx + 1) ps

/-- The round-results leaderboard as initially rendered. -/
def roundResultsEntries (players : List Player) : List LBEntry :=
  roundResultsEntriesAux players 0 (sortedByRound players)

/-- Index of the last occurrence of name `k` in a player list, if any. -/
def lastNameIdx (k : String) : List Player → Option Nat
  | [] => none
  | p :: ps =>
    match lastNameIdx k ps with
    | some j => some (j + 1)
    | none => if p.name = k then some 0 else none

theorem mapGet_mapSet (m : List (String × Nat)) (k k0 : String) (v : Nat) :
    mapGet (mapSet m k0 v) k = if k0 = k then some v else mapGet m k := by
  induction m with
  | nil => simp [mapSet, mapGet]
  | cons e m ih =>
    obtain ⟨ke, ve⟩ := e
    by_cases h1 : ke = k0
    · subst h1
      by_cases h2 : ke = k
      · simp [mapSet, mapGet, h2]
      · simp [mapSet, mapGet, h2]
    · by_cases h2 : ke = k
      · subst h2
        have h3 : ¬k0 = ke := fun h => h1 h.symm
        simp [mapSet, mapGet, h1, h3]
      · simp [mapSet, mapGet, h1, h2, ih]

theorem mapGet_finalPositionsAux (l : List Player) :
    ∀ (m : List (String × Nat)) (idx : Nat) (k : String),
      mapGet (finalPositionsAux m idx l) k =
        match lastNameIdx k l with
        | some j => some (idx + j)
        | none => mapGet m k := by
  induction l with
  | nil => intro m idx k; rfl
  | cons p ps ih =>
    intro m idx k
    simp only [finalPositionsAux, lastNameIdx]
    rw [ih]
    rcases h : lastNameIdx k ps with - | j
    · simp only
      rw [mapGet_mapSet]
      by_cases hk : p.name = k
      · simp [hk]
      · simp [hk]
    · simp only
      have : idx + 1 + j = idx + (j + 1) := by omega
      rw [this]

theorem mapGet_finalPositions (players : List Player) (k : String) :
    mapGet (finalPositions players) k = lastNameIdx k (sortedByTotal players) := by
  unfold finalPositions
  rw [mapGet_finalPositionsAux]
  rcases h : lastNameIdx k (sortedByTotal players) with - | j
  · rfl
  · simp

theorem roundResultsEntriesAux_getD (players : List Player) (l : List Player) :
    ∀ (idx i : Nat), i < l.length →
      (roundResultsEntriesAux players idx l).getD i default =
        (let p := l.getD i default
         let fi := (mapGet (finalPositions players) p.name).getD 0
         { playerId := p.peerId.getD p.name
           rankLabel := p.rank
           name := p.name
           initialIndex := idx + i
           finalIndex := fi
           finalRank := (finalRanks players).getD fi 0
           totalScore := p.totalScore : LBEntry }) := by
  induction l with
  | nil =>
    intro idx i h
    exact absurd h (by simp)
  | cons p ps ih =>
    intro idx i h
    cases i with
    | zero => simp [roundResultsEntriesAux]
    | succ k =>
      have hk : k < ps.length := by simpa using Nat.lt_of_succ_lt_succ h
      simp only [roundResultsEntriesAux, List.getD_cons_succ]
      rw [ih (idx + 1) k hk]
      have : idx + 1 + k = idx + (k + 1) := by omega
      rw [this]

theorem lastNameIdx_isSome_of_mem (k : String) (l : List Player)
    (h : ∃ p ∈ l, p.name = k) : ∃ j, lastNameIdx k l = some j := by
  induction l with
  | nil => simp at h
  | cons p ps ih =>
    rcases h with ⟨q, hq, hqk⟩
    simp only [lastNameIdx]
    rcases hlast : lastNameIdx k ps with - | j
    · rcases List.mem_cons.mp hq with rfl | hq2
      · simp [hqk]
      · rcases ih ⟨q, hq2, hqk⟩ with ⟨j, hj⟩
        rw [hj] at hlast
        exact absurd hlast (by simp)
    · exact ⟨j + 1, rfl⟩

/-- First player of the C10 counterexample: named "A", peerId "peer-x",
the stronger totalScore. -/
def c10PlayerX : Player :=
  { name := "A", iconId := "ufo", rank := 1, roundScore := 0, totalScore := 10,
    peerId := some "peer-x" }

/-- Second player of the C10 counterexample: the same name "A" but a
different peerId and a lower totalScore. -/
def c10PlayerY : Player :=
  { name := "A", iconId := "snail", rank := 2, roundScore := 0, totalScore := 0,
    peerId := some "peer-y" }

/-- C10 counterexample: with two players both named "A" but with distinct
peerIds, the first same-named player in the total order sits at index 0
with final rank 1, yet the rendered entry of that very player is stamped
with final index 1 and final rank 2 — the name-keyed `Map.set`
(receiver.js:502-506) resolves duplicates to the LAST same-named player,
not the first as the claim states. -/
theorem C10_counterexample :
    ((roundResultsEntries [c10PlayerX, c10PlayerY]).getD 0 default).finalIndex = 1 ∧
    ((roundResultsEntries [c10PlayerX, c10PlayerY]).getD 1 default).finalIndex = 1 ∧
    ((roundResultsEntries [c10PlayerX, c10PlayerY]).getD 0 default).finalRank = 2 ∧
    (sortedByTotal [c10PlayerX, c10PlayerY]).findIdx (fun p => p.name == "A") = 0 ∧
    (finalRanks [c10PlayerX, c10PlayerY]).getD 0 0 = 1 ∧
    c10PlayerX.peerId ≠ c10PlayerY.peerId := by
  decide

/-- C10 amended: in a round_results render the correspondence from a
displayed entry to its final index and final rank is keyed solely by the
player's name — peerId is never consulted — and resolves to the LAST
same-named player of the total-order sequence, so two same-named players
both receive that last player's final index and final rank even when
their peerIds differ; peerId (with name as fallback) is used only for the
entry's `data-player-id` identity attribute. -/
theorem C10_name_keyed_final_lookup (players : List Player) (i j : Nat)
    (hi : i < (sortedByRound players).length)
    (hj : j < (sortedByRound players).length) :
    (((roundResultsEntries players).getD i default).playerId =
      (((sortedByRound players).getD i default).peerId).getD
        ((sortedByRound players).getD i default).name) ∧
    (lastNameIdx ((sortedByRound players).getD i default).name (sortedByTotal players) =
      some ((roundResultsEntries players).getD i default).finalIndex) ∧
    (((roundResultsEntries players).getD i default).finalRank =
      (finalRanks players).getD
        ((roundResultsEntries players).getD i default).finalIndex 0) ∧
    (((sortedByRound players).getD i default).name =
        ((sortedByRound players).getD j default).name →
      ((roundResultsEntries players).getD i default).finalIndex =
        ((roundResultsEntries players).getD j default).finalIndex ∧
      ((roundResultsEntries players).getD i default).finalRank =
        ((roundResultsEntries players).getD j default).finalRank) := by
  have hdesc := roundResultsEntriesAux_getD players (sortedByRound players) 0 i hi
  have hdescj := roundResultsEntriesAux_getD players (sortedByRound players) 0 j hj
  have hmem : ∃ p ∈ sortedByTotal players,
      p.name = ((sortedByRound players).getD i default).name := by
    refine ⟨(sortedByRound players).getD i default, ?_, rfl⟩
    have h1 : (sortedByRound players).getD i default ∈ sortedByRound players := by
      rw [List.getD_eq_getElem _ default hi]
      exact List.getElem_mem hi
    exact ((sortedByTotal_perm players).symm.subset
      ((sortedByRound_perm players).subset h1))
  rcases lastNameIdx_isSome_of_mem _ _ hmem with ⟨fi, hfi⟩
  have hget : mapGet (finalPositions players)
      ((sortedByRound players).getD i default).name = some fi := by
    rw [mapGet_finalPositions]
    exact hfi
  refine ⟨?_, ?_, ?_, ?_⟩
  · rw [show roundResultsEntries players = roundResultsEntriesAux players 0 (sortedByRound players) from rfl, hdesc]
  · rw [show roundResultsEntries players = roundResultsEntriesAux players 0 (sortedByRound players) from rfl, hdesc]
    simp only [hget, Option.getD_some]
    exact hfi
  · rw [show roundResultsEntries players = roundResultsEntriesAux players 0 (sortedByRound players) from rfl, hdesc]
  · intro hname
    rw [show roundResultsEntries players = roundResultsEntriesAux players 0 (sortedByRound players) from rfl, hdesc, hdescj]
    simp only [hname]
    exact ⟨trivial, trivial⟩

/-- A timer circle's visual urgency classes (`warning` / `critical` CSS
classes on the timer element). -/
structure TimerEl where
  warning : Bool
  critical : Bool
deriving DecidableEq, Repr, Inhabited

/-- `updateTimerStyle` (receiver.js:54-61): remove both classes, then add
`critical` when `seconds <= 5`, else `warning` when `seconds <= 10`. The
`totalSeconds` parameter is accepted and unused, as in the source. -/
def updateTimerStyle (el : TimerEl) (seconds : Int) (totalSeconds : Int) : TimerEl :=
  let cleared := { el with warning := false, critical := false }
  if seconds ≤ 5 then { cleared with critical := true }
  else if seconds ≤ 10 then { cleared with warning := true }
  else cleared

/-- Payload of an `answering` message (receiver.js:345-355). -/
structure AnsweringData where
  roundNumber : Int
  secondsRemaining : Int
  answersReceived : Int
  totalPlayers : Int
deriving DecidableEq, Repr, Inhabited

/-- Mutable content of the answering screen. -/
structure AnsweringScreen where
  roundNumber : Int
  timerSeconds : Int
  answersReceived : Int
  totalPlayers : Int
  timerCircle : TimerEl
deriving DecidableEq, Repr, Inhabited

/-- `updateAnsweringScreen` (receiver.js:345-355): text fields plus
`updateTimerStyle(timerCircle, data.secondsRemaining, 60)`. -/
def updateAnsweringScreen (d : AnsweringData) (s : AnsweringScreen) : AnsweringScreen :=
  { roundNumber := d.roundNumber
    timerSeconds := d.secondsRemaining
    answersReceived := d.answersReceived
    totalPlayers := d.totalPlayers
    timerCircle := updateTimerStyle s.timerCircle d.secondsRemaining 60 }

/-- Payload of a `matchup_voting` message (receiver.js:360-371). -/
structure MatchupVotingData where
  promptText : String
  answer1 : String
  answer2 : String
  secondsRemaining : Int
  votesReceived : Int
  eligibleVoters : Int
  matchupNumber : Int
  totalMatchups : Int
deriving DecidableEq, Repr, Inhabited

/-- Mutable content of the matchup-voting screen, including the class
state of its timer element. -/
structure MatchupVotingScreen where
  promptText : String
  answer1 : String
  answer2 : String
  timerSeconds : Int
  votesReceived : Int
  eligibleVoters : Int
  matchupNumber : Int
  totalMatchups : Int
  timerCircle : TimerEl
deriving DecidableEq, Repr, Inhabited

/-- `updateMatchupVotingScreen` (receiver.js:360-371): sets the eight
text fields only; the timer element's class state is not touched — this
update contains no `updateTimerStyle` call. -/
def updateMatchupVotingScreen (d : MatchupVotingData) (s : MatchupVotingScreen) :
    MatchupVotingScreen :=
  { promptText := d.promptText
    answer1 := d.answer1
    answer2 := d.answer2
    timerSeconds := d.secondsRemaining
    votesReceived := d.votesReceived
    eligibleVoters := d.eligibleVoters
    matchupNumber := d.matchupNumber
    totalMatchups := d.totalMatchups
    timerCircle := s.timerCircle }

/-- Payload of a `matchup_results` message (receiver.js:376-444). -/
structure MatchupResultsData where
  promptText : String
  player1Name : String
  answer1 : String
  player1Votes : Int
  player1Voters : List String
  player1GetsBonus : Bool
  player1TotalPoints : Option Int
  player2Name : String
  answer2 : String
  player2Votes : Int
  player2Voters : List String
  player2GetsBonus : Bool
  player2TotalPoints : Option Int
  abstainVoters : List String
deriving DecidableEq, Repr, Inhabited

/-- Mutable content of the matchup-results screen; `winner1`, `winner2`
and `abstainWinner` model the `winner` CSS class on the two result cards
and the abstain section. -/
structure MatchupResultsScreen where
  promptText : String
  player1Name : String
  answer1 : String
  points1 : Int
  votes1 : Int
  bonus1Shown : Bool
  voters1 : List String
  winner1 : Bool
  player2Name : String
  answer2 : String
  points2 : Int
  votes2 : Int
  bonus2Shown : Bool
  voters2 : List String
  winner2 : Bool
  abstainShown : Bool
  abstainWinner : Bool
  abstainIcons : List String
deriving DecidableEq, Repr, Inhabited

/-- `updateMatchupResultsScreen` (receiver.js:376-444).  Winner marking
(receiver.js:419-443): `maxVotes = Math.max(player1Votes, player2Votes,
abstainVoters.length)`; each player card gets the `winner` class iff its
votes equal `maxVotes`; the abstain section is shown only when
`abstainVoters` is non-empty and gets the `winner` class iff (shown and)
its length equals `maxVotes`; when empty it is hidden and its `winner`
class stays removed.  `points` falls back from `TotalPoints` to votes
(`!== undefined` check, receiver.js:385 and 404). -/
def updateMatchupResultsScreen (d : MatchupResultsData) (s : MatchupResultsScreen) :
    MatchupResultsScreen :=
  let maxVotes : Int := max d.player1Votes (max d.player2Votes (d.abstainVoters.length : Int))
  { promptText := d.promptText
    player1Name := d.player1Name
    answer1 := d.answer1
    points1 := d.player1TotalPoints.getD d.player1Votes
    votes1 := d.player1Votes
    bonus1Shown := d.player1GetsBonus
    voters1 := d.player1Voters
    winner1 := d.player1Votes == maxVotes
    player2Name := d.player2Name
    answer2 := d.answer2
    points2 := d.player2TotalPoints.getD d.player2Votes
    votes2 := d.player2Votes
    bonus2Shown := d.player2GetsBonus
    voters2 := d.player2Voters
    winner2 := d.player2Votes == maxVotes
    abstainShown := !d.abstainVoters.isEmpty
    abstainWinner :=
      if d.abstainVoters.isEmpty then false
      else (d.abstainVoters.length : Int) == maxVotes
    abstainIcons := d.abstainVoters }

/-- A matchup-results payload in which nobody voted and nobody abstained:
every count is 0, so every side's count equals the maximum. -/
def c7Data0 : MatchupResultsData :=
  { promptText := "p", player1Name := "P1", answer1 := "a1", player1Votes := 0,
    player1Voters := [], player1GetsBonus := false, player1TotalPoints := none,
    player2Name := "P2", answer2 := "a2", player2Votes := 0,
    player2Voters := [], player2GetsBonus := false, player2TotalPoints := none,
    abstainVoters := [] }

/-- C7 counterexample: with player1Votes = 0, player2Votes = 0 and no
abstain voters, the abstain bucket's count (0) equals
max(player1Votes, player2Votes, abstainVoters.length) = 0, yet the code
hides the empty abstain section and does not mark it winner
(receiver.js:441-443) — so it is not true that exactly the sides whose
count equals the maximum are marked winner. -/
theorem C7_counterexample :
    ((c7Data0.abstainVoters.length : Int) =
      max c7Data0.player1Votes (max c7Data0.player2Votes (c7Data0.abstainVoters.length : Int))) ∧
    (updateMatchupResultsScreen c7Data0 default).abstainWinner = false ∧
    (updateMatchupResultsScreen c7Data0 default).winner1 = true ∧
    (updateMatchupResultsScreen c7Data0 default).winner2 = true := by
  decide

/-- C7 amended: each player side is marked winner iff its vote count
equals max(player1Votes, player2Votes, abstainVoters.length); the abstain
bucket is marked winner iff it is non-empty AND its count equals that
maximum (an empty abstain bucket is hidden and never marked); ties mark
each side independently, including abstain winning by having the most
non-votes. -/
theorem C7_winner_marking (d : MatchupResultsData) (s : MatchupResultsScreen) :
    ((updateMatchupResultsScreen d s).winner1 = true ↔
      d.player1Votes = max d.player1Votes (max d.player2Votes (d.abstainVoters.length : Int))) ∧
    ((updateMatchupResultsScreen d s).winner2 = true ↔
      d.player2Votes = max d.player1Votes (max d.player2Votes (d.abstainVoters.length : Int))) ∧
    ((updateMatchupResultsScreen d s).abstainWinner = true ↔
      (d.abstainVoters ≠ [] ∧
        (d.abstainVoters.length : Int) =
          max d.player1Votes (max d.player2Votes (d.abstainVoters.length : Int)))) := by
  refine ⟨?_, ?_, ?_⟩
  · simp [updateMatchupResultsScreen]
  · simp [updateMatchupResultsScreen]
  · by_cases hA : d.abstainVoters.isEmpty
    · simp [updateMatchupResultsScreen, hA, List.isEmpty_iff.mp hA]
    · have hne : d.abstainVoters ≠ [] := fun h => hA (List.isEmpty_iff.mpr h)
      simp [updateMatchupResultsScreen, hA, hne]

/-- The badge images of the game-results screen
(`halfwit_winner.png` / `halfwit_loser.png`, receiver.js:669-675). -/
inductive Badge
  | winner
  | halfwit
deriving DecidableEq, Repr

/-- A rendered game-results leaderboard entry
(`createGameResultEntry`, receiver.js:645-694). -/
structure GameResultEntry where
  playerId : String
  rankLabel : Int
  name : String
  totalScore : Int
  badge : Option Badge
deriving DecidableEq, Repr, Inhabited

/-- `createGameResultEntry` (receiver.js:645-694). -/
def createGameResultEntry (p : Player) (badge : Option Badge) : GameResultEntry :=
  { playerId := p.peerId.getD p.name
    rankLabel := p.rank
    name := p.name
    totalScore := p.totalScore
    badge := badge }

/-- `updateGameResultsScreen` (receiver.js:619-640): `topRank =
Math.min(...ranks)`, `bottomRank = Math.max(...ranks)`; per player the
badge is `winner` if `rank === topRank`, ELSE `halfwit` if `rank ===
bottomRank` (the `else if` makes `winner` take precedence).  For an empty
player list `Math.min()`/`Math.max()` are infinite and no entries are
rendered; modelled by the empty entry list. -/
def updateGameResultsScreen (players : List Player) : List GameResultEntry :=
  match (players.map (fun p => p.rank)).min?, (players.map (fun p => p.rank)).max? with
  | some topRank, some bottomRank =>
    players.map (fun p =>
      createGameResultEntry p
        (if p.rank = topRank then some Badge.winner
         else if p.rank = bottomRank then some Badge.halfwit
         else none))
  | _, _ => []

/-- A single-player game-results payload. -/
def c8Solo : Player := { name := "Solo", iconId := "penguin", rank := 1, totalScore := 7 }

/-- C8 counterexample: with a single player, that player's rank (1) is
both the numerically lowest and the numerically highest rank, so the
claim requires it to receive both the winner badge and the last-place
badge; the code's `else if` (receiver.js:635-636) gives it only the
winner badge. -/
theorem C8_counterexample :
    ([c8Solo].map (fun p => p.rank)).max? = some c8Solo.rank ∧
    (updateGameResultsScreen [c8Solo]).map (fun e => e.badge) = [some Badge.winner] := by
  decide

/-- C8 amended: a player receives the winner badge iff its rank equals
the numerically lowest rank of the list, and the last-place badge iff its
rank equals the numerically highest rank AND not the lowest (winner takes
precedence via the `else if`); hence the two badges never coincide on a
player — in particular a single player gets only the winner badge.  The
determination uses min/max over the incoming ranks, not scores. -/
theorem C8_badges (players : List Player) (topRank bottomRank : Int)
    (hmin : (players.map (fun p => p.rank)).min? = some topRank)
    (hmax : (players.map (fun p => p.rank)).max? = some bottomRank)
    (i : Nat) (hi : i < players.length) :
    (((updateGameResultsScreen players).getD i default).badge = some Badge.winner ↔
      (players.getD i default).rank = topRank) ∧
    (((updateGameResultsScreen players).getD i default).badge = some Badge.halfwit ↔
      ((players.getD i default).rank = bottomRank ∧
        (players.getD i default).rank ≠ topRank)) := by
  have hlen : i < (players.map (fun p =>
      createGameResultEntry p
        (if p.rank = topRank then some Badge.winner
         else if p.rank = bottomRank then some Badge.halfwit
         else none))).length := by
    simpa using hi
  unfold updateGameResultsScreen
  rw [hmin, hmax]
  have hp : players.getD i default = players[i] := List.getD_eq_getElem players default hi
  rw [List.getD_eq_getElem _ default hlen, List.getElem_map, hp]
  by_cases htop : players[i].rank = topRank
  · simp [createGameResultEntry, htop]
  · by_cases hbot : players[i].rank = bottomRank
    · simp [createGameResultEntry, htop, hbot]
    · simp [createGameResultEntry, htop, hbot]

/-- A matchup-voting payload with 3 seconds remaining. -/
def c9Data : MatchupVotingData :=
  { promptText := "p", answer1 := "a", answer2 := "b", secondsRemaining := 3,
    votesReceived := 0, eligibleVoters := 4, matchupNumber := 1, totalMatchups := 2 }

/-- C9 counterexample: a matchup-voting update with 3 seconds remaining
(≤ 5, so the claim requires the critical state) leaves the timer
element's class state untouched — `updateMatchupVotingScreen`
(receiver.js:360-371) never calls `updateTimerStyle`, so a neutral timer
stays neutral. -/
theorem C9_counterexample :
    c9Data.secondsRemaining ≤ 5 ∧
    (updateMatchupVotingScreen c9Data default).timerCircle.critical = false := by
  decide

/-- C9 amended: on every update of the answering screen the timer
element's urgency is recomputed from scratch from the remaining seconds —
independently of the previous class state, hence idempotent: ≤ 5 yields
critical, ≤ 10 (but > 5) yields warning, otherwise neutral
(receiver.js:54-61, 353-354).  The matchup-voting screen update, however,
does not apply this rule: it leaves the timer element's class state
unchanged. -/
theorem C9_timer_urgency (d : AnsweringData) (s : AnsweringScreen)
    (d2 : MatchupVotingData) (s2 : MatchupVotingScreen) :
    ((updateAnsweringScreen d s).timerCircle =
      (if d.secondsRemaining ≤ 5 then { warning := false, critical := true }
       else if d.secondsRemaining ≤ 10 then { warning := true, critical := false }
       else { warning := false, critical := false } : TimerEl)) ∧
    (updateMatchupVotingScreen d2 s2).timerCircle = s2.timerCircle := by
  exact ⟨rfl, rfl⟩

/-- The screen registry's names (receiver.js:12-25); `endScreen` is the
`end` screen. -/
inductive ScreenName
  | connecting
  | lobby
  | tutorial
  | loading
  | countdown
  | answering
  | votingTransition
  | matchupVoting
  | matchupResults
  | roundResults
  | gameResults
  | endScreen
deriving DecidableEq, Repr

/-- Payload of a `lobby` message (receiver.js:299-313). -/
structure LobbyData where
  gameName : String
  hostName : String
  players : List Player
  maxPlayers : Int
  totalRounds : Int
deriving DecidableEq, Repr, Inhabited

/-- Payload of a `round_countdown` message (receiver.js:334-340). -/
structure CountdownData where
  roundNumber : Int
  secondsRemaining : Int
  totalRounds : Int
deriving DecidableEq, Repr, Inhabited

/-- Payload of a `tutorial` message (both fields optional,
receiver.js:784-785). -/
structure TutorialData where
  totalRounds : Option Int
  answerTimeSeconds : Option Int
deriving DecidableEq, Repr, Inhabited

/-- Payload of a `round_results` message (receiver.js:453-462). -/
structure RoundResultsData where
  roundNumber : Int
  players : List Player
deriving DecidableEq, Repr, Inhabited

/-- Global mutable state of the receiver: the single current screen
(receiver.js:27), the tutorial scheduler's state (receiver.js:698-700)
and the rendered content of the screens the claims observe.
`tutorialRun` is a ghost counter identifying tutorial invocations so that
"one run's timers" can be stated; each pending tutorial timer is recorded
as a (run, offset) pair. -/
structure AppState where
  current : ScreenName
  tutorialRunning : Bool
  tutorialRun : Nat
  tutorialTimeouts : List (Nat × Nat)
  loadingStatus : String
  lobby : Option LobbyData
  countdown : Option CountdownData
  answering : AnsweringScreen
  matchupVoting : MatchupVotingScreen
  matchupResults : MatchupResultsScreen
  roundResultsRound : Int
  roundResultsBoard : List LBEntry
  gameResults : List GameResultEntry
deriving DecidableEq, Repr

/-- Initial state: the connecting screen is current (receiver.js:27), no
tutorial running, no timers pending. -/
def initialState : AppState :=
  { current := ScreenName.connecting
    tutorialRunning := false
    tutorialRun := 0
    tutorialTimeouts := []
    loadingStatus := ""
    lobby := none
    countdown := none
    answering := default
    matchupVoting := default
    matchupResults := default
    roundResultsRound := 0
    roundResultsBoard := []
    gameResults := [] }

/-- `clearTutorialTimeouts` (receiver.js:705-709): cancel every pending
tutorial timer and mark the tutorial as not running. -/
def clearTutorialTimeouts (s : AppState) : AppState :=
  { s with tutorialTimeouts := [], tutorialRunning := false }

/-- `showScreen` (receiver.js:32-49): leaving the tutorial screen for any
other screen first cancels all pending tutorial timers; then the target
becomes the single active screen. -/
def showScreen (s : AppState) (name : ScreenName) : AppState :=
  let s1 := if s.current = ScreenName.tutorial ∧ name ≠ ScreenName.tutorial
    then clearTutorialTimeouts s else s
  { s1 with current := name }

/-- The 26 timeline offsets (milliseconds) at which `startTutorial`
registers its `tutorialTimeout` callbacks up front
(receiver.js:858-1054); the offsets are fixed cumulative sums and do not
depend on the payload. Callbacks that fire later push further nested
timers (step fade-ins, typewriter characters) into the same run's timer
list; they are not needed by the cancellation claims modelled here. -/
def tutorialSchedule : List Nat :=
  [1750, 3500, 5500, 7500, 7700, 8200, 8200, 8830, 9460, 10490, 11625,
   12125, 12625, 13725, 15025, 15625, 16125, 18725, 19475, 20475, 20975,
   21725, 22725, 23225, 26975, 29975]

/-- `startTutorial` (receiver.js:773-1057): a duplicate `tutorial` event
while a run is in progress and the tutorial screen is current is ignored
(receiver.js:775-778); otherwise any previous run's timers are cleared
(receiver.js:781), the run flag is set, the tutorial screen is shown and
the timeline is scheduled.  The content resets (step visibility, label
texts) are not observed by any claim and are not modelled. -/
def startTutorial (s : AppState) (d : TutorialData) : AppState :=
  if s.tutorialRunning = true ∧ s.current = ScreenName.tutorial then s
  else
    let s1 := clearTutorialTimeouts s
    let s2 := { s1 with tutorialRunning := true, tutorialRun := s1.tutorialRun + 1 }
    let s3 := showScreen s2 ScreenName.tutorial
    { s3 with tutorialTimeouts := tutorialSchedule.map (fun off => (s2.tutorialRun, off)) }

/-- The decoded form of an inbound message: one constructor per `switch
(data.type)` case of the dispatcher (receiver.js:215-289); `unknown`
covers a decoded object whose `type` matches no case (the `default`
branch). -/
inductive GameMsg
  | lobbyMsg (d : LobbyData)
  | tutorialMsg (d : TutorialData)
  | skipTutorial
  | loadingMsg
  | loadingRound (roundNumber : Int)
  | roundCountdown (d : CountdownData)
  | answeringMsg (d : AnsweringData)
  | votingTransition
  | matchupVotingMsg (d : MatchupVotingData)
  | matchupResultsMsg (d : MatchupResultsData)
  | roundResultsMsg (d : RoundResultsData)
  | gameResultsMsg (players : List Player)
  | endMsg
  | unknown (type : String)
deriving DecidableEq, Repr

/-- The dispatcher `handleMessage` (receiver.js:209-294).  `JSON.parse`
is the host runtime's parser; its outcome on the raw message string is
the `Except` argument: `Except.error` is the parse exception, caught by
the surrounding try/catch which only logs, so the state is untouched.
The `default` branch for an unrecognized `type` also only logs.  The
dispatcher is a total function: no exception escapes.  The round-results
timers are modelled separately (the `RR` namespace); here the render
outcome of `updateRoundResultsScreen` (entries and round number) is
recorded. -/
def handleMessage (parsed : Except String GameMsg) (s : AppState) : AppState :=
  match parsed with
  | Except.error _ => s
  | Except.ok (GameMsg.lobbyMsg d) => showScreen { s with lobby := some d } ScreenName.lobby
  | Except.ok (GameMsg.tutorialMsg d) => startTutorial s d
  | Except.ok GameMsg.skipTutorial =>
    let s1 := clearTutorialTimeouts s
    showScreen { s1 with loadingStatus := "Loading Round 1..." } ScreenName.loading
  | Except.ok GameMsg.loadingMsg =>
    showScreen { s with loadingStatus := "Loading Game..." } ScreenName.loading
  | Except.ok (GameMsg.loadingRound n) =>
    if s.tutorialRunning = true ∧ s.current = ScreenName.tutorial then s
    else showScreen { s with loadingStatus := "Loading Round " ++ toString n ++ "..." }
      ScreenName.loading
  | Except.ok (GameMsg.roundCountdown d) =>
    showScreen { s with countdown := some d } ScreenName.countdown
  | Except.ok (GameMsg.answeringMsg d) =>
    showScreen { s with answering := updateAnsweringScreen d s.answering } ScreenName.answering
  | Except.ok GameMsg.votingTransition => showScreen s ScreenName.votingTransition
  | Except.ok (GameMsg.matchupVotingMsg d) =>
    showScreen { s with matchupVoting := updateMatchupVotingScreen d s.matchupVoting }
      ScreenName.matchupVoting
  | Except.ok (GameMsg.matchupResultsMsg d) =>
    showScreen { s with matchupResults := updateMatchupResultsScreen d s.matchupResults }
      ScreenName.matchupResults
  | Except.ok (GameMsg.roundResultsMsg d) =>
    showScreen
      { s with
        roundResultsRound := d.roundNumber
        roundResultsBoard := roundResultsEntries d.players }
      ScreenName.roundResults
  | Except.ok (GameMsg.gameResultsMsg players) =>
    showScreen { s with gameResults := updateGameResultsScreen players } ScreenName.gameResults
  | Except.ok GameMsg.endMsg => showScreen s ScreenName.endScreen
  | Except.ok (GameMsg.unknown _) => s

/-- C6: the dispatcher never lets an exception escape (it is a total
function of the parse outcome); a raw string that fails to parse leaves
the entire state — in particular the active screen — unchanged, and a
message that decodes but whose type matches no recognized handler is
dropped with no side effects: no content mutation, no screen switch, no
scheduler start or stop. -/
theorem C6_dispatcher_error_handling :
    (∀ (e : String) (s : AppState), handleMessage (Except.error e) s = s) ∧
    (∀ (ty : String) (s : AppState), handleMessage (Except.ok (GameMsg.unknown ty)) s = s) :=
  ⟨fun _ _ => rfl, fun _ _ => rfl⟩

/-- C5: at most one tutorial run's timers are pending at any time:
(1) a tutorial event arriving while a run is in progress and the tutorial
screen is current is ignored entirely — no restart, no new timers;
(2) any other start cancels every pending timer of the previous run and
leaves pending exactly the new run's timeline;
(3) leaving the tutorial screen for any other screen cancels every
pending tutorial timer;
(4) two start requests in immediate succession leave exactly one running
timeline — the second start is a no-op. -/
theorem C5_tutorial_single_run (s : AppState) (d d2 : TutorialData) (name : ScreenName) :
    (s.tutorialRunning = true → s.current = ScreenName.tutorial → startTutorial s d = s) ∧
    (¬(s.tutorialRunning = true ∧ s.current = ScreenName.tutorial) →
      (startTutorial s d).tutorialTimeouts =
        tutorialSchedule.map (fun off => (s.tutorialRun + 1, off)) ∧
      (startTutorial s d).tutorialRun = s.tutorialRun + 1 ∧
      (startTutorial s d).tutorialRunning = true ∧
      (startTutorial s d).current = ScreenName.tutorial) ∧
    (s.current = ScreenName.tutorial → name ≠ ScreenName.tutorial →
      (showScreen s name).tutorialTimeouts = []) ∧
    startTutorial (startTutorial s d) d2 = startTutorial s d := by
  refine ⟨?_, ?_, ?_, ?_⟩
  · intro h1 h2
    unfold startTutorial
    rw [if_pos ⟨h1, h2⟩]
  · intro h
    unfold startTutorial
    rw [if_neg h]
    refine ⟨?_, ?_, ?_, ?_⟩ <;> simp [showScreen, clearTutorialTimeouts]
  · intro h1 h2
    unfold showScreen
    rw [if_pos ⟨h1, h2⟩]
    rfl
  · by_cases h : s.tutorialRunning = true ∧ s.current = ScreenName.tutorial
    · have e1 : startTutorial s d = s := by
        unfold startTutorial
        rw [if_pos h]
      rw [e1]
      unfold startTutorial
      rw [if_pos h]
    · have hguard : (startTutorial s d).tutorialRunning = true ∧
          (startTutorial s d).current = ScreenName.tutorial := by
        unfold startTutorial
        rw [if_neg h]
        simp [showScreen, clearTutorialTimeouts]
      generalize he : startTutorial s d = t at hguard
      unfold startTutorial
      rw [if_pos hguard]

/-- The state after one tutorial start from the initial state: a run is
in progress and the tutorial screen is current. -/
def c5Run1 : AppState :=
  startTutorial initialState { totalRounds := none, answerTimeSeconds := none }

/-- C5 witness: concrete instances — a duplicate start on the running
tutorial is a no-op, the first start from the initial state schedules
exactly run 1's timers, and leaving the tutorial for the loading screen
empties the pending-timer list. -/
theorem C5_witness :
    (startTutorial c5Run1 { totalRounds := none, answerTimeSeconds := none } = c5Run1) ∧
    ((startTutorial initialState
        { totalRounds := none, answerTimeSeconds := none }).tutorialTimeouts =
      tutorialSchedule.map (fun off => (initialState.tutorialRun + 1, off))) ∧
    ((showScreen c5Run1 ScreenName.loading).tutorialTimeouts = []) := by
  refine ⟨?_, ?_, ?_⟩
  · exact (C5_tutorial_single_run c5Run1
      { totalRounds := none, answerTimeSeconds := none }
      { totalRounds := none, answerTimeSeconds := none } ScreenName.loading).1
      (by decide) (by decide)
  · exact ((C5_tutorial_single_run initialState
      { totalRounds := none, answerTimeSeconds := none }
      { totalRounds := none, answerTimeSeconds := none } ScreenName.loading).2.1
      (by decide)).1
  · exact (C5_tutorial_single_run c5Run1
      { totalRounds := none, answerTimeSeconds := none }
      { totalRounds := none, answerTimeSeconds := none } ScreenName.loading).2.2.1
      (by decide) (by decide)

namespace RR

/-- A rendered leaderboard entry node for the timer model, identified by
the round_results invocation (generation) that created it and its initial
index; `finalIndex` is its `data-final-index` attribute. -/
structure LBNode where
  egen : Nat
  initialIndex : Nat
  finalIndex : Nat
deriving DecidableEq, Repr

/-- What a pending `setTimeout` callback of the round-results animator
does when it fires: the 3000ms dwell callback (receiver.js:534-613) or
the 850ms settle callback (receiver.js:597-611) over its captured
`entries` array. -/
inductive Tag
  | dwell
  | settle (entries : List LBNode)
deriving DecidableEq, Repr

/-- A pending timer: its `setTimeout` id, its absolute fire time and its
callback. -/
structure Timer where
  id : Nat
  fireAt : Nat
  tag : Tag
deriving DecidableEq, Repr

/-- State of the round-results animator together with its host timer
queue: current time, next `setTimeout` id (browser ids are positive
integers), the pending timers, the `roundResultsReorderTimeout` variable
(receiver.js:447), the number of round_results events handled so far
(the generation) and the children of the `.leaderboard` element in
document order. -/
structure State where
  now : Nat
  nextId : Nat
  timers : List Timer
  reorderTimeout : Option Nat
  gen : Nat
  dom : List LBNode
deriving DecidableEq, Repr

/-- The initial state. -/
def init : State :=
  { now := 0, nextId := 1, timers := [], reorderTimeout := none, gen := 0, dom := [] }

/-- `clearTimeout(id)`: remove the pending timer with that id, if any; an
id whose timer already fired matches nothing and the call is a no-op. -/
def clearTimeout (timers : List Timer) (i : Nat) : List Timer :=
  timers.filter (fun t => t.id != i)

/-- `appendChild`: re-appending an element moves it to the end of the
container; an element not currently in the container is appended. -/
def appendChild (dom : List LBNode) (e : LBNode) : List LBNode :=
  (dom.filter (fun x => x != e)) ++ [e]

/-- The temporal skeleton of `updateRoundResultsScreen`
(receiver.js:453-614): clear the tracked reorder timeout if one is
stored (receiver.js:456-460), rebuild the leaderboard (`innerHTML = ''`
followed by appends, receiver.js:464-523) with a fresh generation of
entries — `finalIdxs` lists each rendered entry's `data-final-index` in
display order — and schedule the 3000ms dwell callback, storing its
`setTimeout` id in `roundResultsReorderTimeout` (receiver.js:534 and
613). -/
def handleRoundResults (finalIdxs : List Nat) (s : State) : State :=
  let timers1 := match s.reorderTimeout with
    | some i => clearTimeout s.timers i
    | none => s.timers
  let g := s.gen + 1
  let nodes := (List.range finalIdxs.length).map (fun i =>
    { egen := g, initialIndex := i, finalIndex := finalIdxs.getD i 0 : LBNode })
  { now := s.now
    nextId := s.nextId + 1
    timers := timers1 ++ [{ id := s.nextId, fireAt := s.now + 3000, tag := Tag.dwell }]
    reorderTimeout := some s.nextId
    gen := g
    dom := nodes }

/-- Run one fired callback.  The dwell callback reads the leaderboard's
entries at fire time; with no entries it returns (receiver.js:543-546);
otherwise it applies the per-entry transforms and schedules the 850ms
settle callback over the captured entries WITHOUT storing the new
`setTimeout` id anywhere (receiver.js:597 discards it), so
`roundResultsReorderTimeout` keeps holding the id of the dwell timer
that has just fired.  The settle callback sorts its captured entries by
`data-final-index` ascending and re-appends each to the leaderboard in
that order (receiver.js:601-610). -/
def runCallback (s : State) : Tag → State
  | Tag.dwell =>
    if s.dom = [] then s
    else
      { s with
        timers := s.timers ++
          [{ id := s.nextId, fireAt := s.now + 850, tag := Tag.settle s.dom }]
        nextId := s.nextId + 1 }
  | Tag.settle entries =>
    let sorted := List.insertionSort (fun a b => a.finalIndex ≤ b.finalIndex) entries
    { s with dom := sorted.foldl appendChild s.dom }

/-- The earliest-due pending timer (ties go to the earlier-scheduled
entry, as in the browser's timer queue; the list is kept in scheduling
order). -/
def dueTimer : List Timer → Option Timer
  | [] => none
  | t :: ts =>
    match dueTimer ts with
    | none => some t
    | some u => if t.fireAt ≤ u.fireAt then some t else some u

/-- Advance time to the next timer expiry and run its callback. -/
def step (s : State) : State :=
  match dueTimer s.timers with
  | none => s
  | some t =>
    runCallback { s with now := t.fireAt, timers := s.timers.filter (fun x => x != t) } t.tag

/-- The round_results payload of the demonstration: two players whose
round order and total order are reversed (final indices [1, 0]). -/
def demoRound : List Nat := [1, 0]

/-- First round_results handled at t = 0. -/
def trace1 : State := handleRoundResults demoRound init

/-- The 3000ms dwell fires: transforms are applied and the 850ms settle
is scheduled for t = 3850 — its id (2) is not stored anywhere. -/
def trace2 : State := step trace1

/-- A second round_results handled at t = 3000, inside the settle
window: `clearTimeout` clears stored id 1 — the dwell that has already
fired — so the pending settle timer survives. -/
def trace3 : State := handleRoundResults demoRound trace2

/-- The stale settle fires at t = 3850 against the new leaderboard. -/
def trace4 : State := step trace3

end RR

/-- C4 (demonstrating the code bug): when a round_results event is
handled during the 850ms settle window of the previous round_results, the
previous round's settle timer is NOT canceled — its `setTimeout` id was
discarded (receiver.js:597), so the `clearTimeout` of
receiver.js:456-460 removes only the already-fired dwell id — and the
stale settle callback then executes against the newly rendered
leaderboard, re-appending the previous round's entries after the new
ones.  (In the dwell window, by contrast, cancellation works: the second
event removes the stored dwell timer, shown by the first conjunct.) -/
theorem C4_stale_settle_fires :
    ((RR.handleRoundResults RR.demoRound RR.trace1).timers =
      [{ id := 2, fireAt := 3000, tag := RR.Tag.dwell }]) ∧
    (RR.trace3.timers =
      [{ id := 2, fireAt := 3850,
         tag := RR.Tag.settle
           [{ egen := 1, initialIndex := 0, finalIndex := 1 },
            { egen := 1, initialIndex := 1, finalIndex := 0 }] },
       { id := 3, fireAt := 6000, tag := RR.Tag.dwell }]) ∧
    (RR.trace3.dom =
      [{ egen := 2, initialIndex := 0, finalIndex := 1 },
       { egen := 2, initialIndex := 1, finalIndex := 0 }]) ∧
    (RR.trace4.dom =
      [{ egen := 2, initialIndex := 0, finalIndex := 1 },
       { egen := 2, initialIndex := 1, finalIndex := 0 },
       { egen := 1, initialIndex := 1, finalIndex := 0 },
       { egen := 1, initialIndex := 0, finalIndex := 1 }]) := by
  decide

/-- The spec's own round-results scenario: A (round 3, total 10),
B (round 3, total 7), C (round 1, total 12). -/
def c1Demo : List Player :=
  [{ name := "A", iconId := "ufo", roundScore := 3, totalScore := 10 },
   { name := "B", iconId := "snail", roundScore := 3, totalScore := 7 },
   { name := "C", iconId := "cactus", roundScore := 1, totalScore := 12 }]

/-- C1 witness: on the spec's scenario, the tied round scores of A and B
share a display rank, a strictly greater total score gives a strictly
smaller final rank, and C's display rank is the 1-based position of the
first occurrence of its round score. -/
theorem C1_witness :
    ((displayRanks c1Demo).getD 0 0 = (displayRanks c1Demo).getD 1 0) ∧
    ((finalRanks c1Demo).getD 0 0 < (finalRanks c1Demo).getD 2 0) ∧
    ((displayRanks c1Demo).getD 2 0 =
      (sortedByRound c1Demo).findIdx
        (fun p => p.roundScore == ((sortedByRound c1Demo).getD 2 default).roundScore) + 1) :=
  ⟨(C1_competition_ranking c1Demo 0 1 (by decide) (by decide)).1.1 (by decide),
   (C1_competition_ranking c1Demo 0 2 (by decide) (by decide)).2.2.1 (by decide),
   (C1_competition_ranking c1Demo 2 0 (by decide) (by decide)).1.2.2⟩

/-- A two-player game-results payload with ranks 1 and 2. -/
def c8Demo : List Player :=
  [{ name := "P1", iconId := "ufo", rank := 1, totalScore := 5 },
   { name := "P2", iconId := "snail", rank := 2, totalScore := 3 }]

/-- C8 witness: with ranks [1, 2], the rank-1 player's badge is the
winner badge and the rank-2 player's badge is the last-place badge. -/
theorem C8_witness :
    (((updateGameResultsScreen c8Demo).getD 0 default).badge = some Badge.winner ↔
      (c8Demo.getD 0 default).rank = 1) ∧
    (((updateGameResultsScreen c8Demo).getD 1 default).badge = some Badge.halfwit ↔
      ((c8Demo.getD 1 default).rank = 2 ∧ (c8Demo.getD 1 default).rank ≠ 1)) :=
  ⟨(C8_badges c8Demo 1 2 (by decide) (by decide) 0 (by decide)).1,
   (C8_badges c8Demo 1 2 (by decide) (by decide) 1 (by decide)).2⟩

/-- C10 witness: on the duplicate-name payload, the first displayed
entry's identity attribute is its peerId, and its final index is the
index of the last same-named player of the total order. -/
theorem C10_witness :
    (((roundResultsEntries [c10PlayerX, c10PlayerY]).getD 0 default).playerId =
      (((sortedByRound [c10PlayerX, c10PlayerY]).getD 0 default).peerId).getD
        ((sortedByRound [c10PlayerX, c10PlayerY]).getD 0 default).name) ∧
    (lastNameIdx ((sortedByRound [c10PlayerX, c10PlayerY]).getD 0 default).name
        (sortedByTotal [c10PlayerX, c10PlayerY]) =
      some ((roundResultsEntries [c10PlayerX, c10PlayerY]).getD 0 default).finalIndex) :=
  ⟨(C10_name_keyed_final_lookup [c10PlayerX, c10PlayerY] 0 1 (by decide) (by decide)).1,
   (C10_name_keyed_final_lookup [c10PlayerX, c10PlayerY] 0 1 (by decide) (by decide)).2.1⟩

end HalfwitReceiver
